import Mathlib

/-!
Shallow embedding of the hipchat Go client library.

The repository has two generations of the code:
  * the current implementation (a Client with AuthToken and BaseURL,
    PostMessage / RoomList / RoomHistory, a shared getError decoder);
  * a legacy implementation (a Client with only AuthToken, a package-level
    baseURL constant, an older PostMessage and an older RoomList), embedded
    below in the Legacy namespace.

JSON bodies are embedded as an abstract syntax tree: the real parser maps a
byte string either to a parse failure or to such a tree, so a response body is
modelled as Body, which is either a failed parse (carrying the parse-error
message) or a Json value.  The behaviour of json.Unmarshal into the concrete
target struct types of the source is translated function by function: an
object fills the matching fields (key match is case insensitive, modelled with
toLower), unknown keys are ignored, a missing key leaves the zero value, JSON
null leaves the target unchanged, and a type mismatch fails with an error.
The HTTP round trip is a parameter (an oracle from the issued request to its
result), and each operation returns the updated client, the list of requests
it issued, and its Go result.
-/

inductive Json where
  | null
  | bool (b : Bool)
  | num (n : Int)
  | str (s : String)
  | arr (elems : List Json)
  | obj (fields : List (String × Json))

/-- Name of a JSON value kind as it appears in Go json error messages. -/
def jsonTypeName : Json → String
  | .null => "null"
  | .bool _ => "bool"
  | .num _ => "number"
  | .str _ => "string"
  | .arr _ => "array"
  | .obj _ => "object"

/-- Message of the UnmarshalTypeError raised by json.Unmarshal on a kind
mismatch. -/
def cannotUnmarshal (j : Json) (goType : String) : String :=
  "json: cannot unmarshal " ++ jsonTypeName j ++ " into Go value of type " ++ goType

/-- Case-insensitive matching of incoming JSON object keys against Go field
names, modelled by per-character lowercasing of the incoming key. -/
def lowerKey (s : String) : String :=
  ⟨s.data.map Char.toLower⟩

/-- Decoding a JSON value into a Go string field: null leaves the current
value, a string replaces it, anything else is a type error. -/
def decodeStringField (cur : String) : Json → Except String String
  | .null => .ok cur
  | .str s => .ok s
  | j => .error (cannotUnmarshal j "string")

/-- Decoding a JSON value into a Go int field. -/
def decodeIntField (cur : Int) : Json → Except String Int
  | .null => .ok cur
  | .num n => .ok n
  | j => .error (cannotUnmarshal j "int")

/-- Decoding a JSON value into a Go bool field. -/
def decodeBoolField (cur : Bool) : Json → Except String Bool
  | .null => .ok cur
  | .bool b => .ok b
  | j => .error (cannotUnmarshal j "bool")

/-- HipchatError from the source: Code int, Type string, Message string.
The Go field named Type is called type here because Type is reserved in
Lean. -/
structure HipchatError where
  Code : Int
  type : String
  Message : String
deriving Repr, DecidableEq

instance : Inhabited HipchatError := ⟨⟨0, "", ""⟩⟩

/-- The Error method of HipchatError: returns the Message field. -/
def HipchatError.Error (e : HipchatError) : String :=
  e.Message

/-- json.Unmarshal into a HipchatError value (fields Code, Type, Message,
matched case insensitively). -/
def unmarshalHipchatError (cur : HipchatError) : Json → Except String HipchatError
  | .null => .ok cur
  | .obj fs =>
    fs.foldlM (fun e kv =>
      let k := lowerKey kv.1
      if k == "code" then (decodeIntField e.Code kv.2).map (fun n => { e with Code := n })
      else if k == "type" then (decodeStringField e.type kv.2).map (fun s => { e with type := s })
      else if k == "message" then (decodeStringField e.Message kv.2).map (fun s => { e with Message := s })
      else .ok e) cur
  | j => .error (cannotUnmarshal j "hipchat.HipchatError")

/-- json.Unmarshal into an ErrorResponse value (single field Error of type
HipchatError); returns the Error field, matching how both call sites read
errResp.Error. -/
def unmarshalErrorResponse : Json → Except String HipchatError
  | .null => .ok default
  | .obj fs =>
    fs.foldlM (fun e kv =>
      if lowerKey kv.1 == "error" then unmarshalHipchatError e kv.2 else .ok e) default
  | j => .error (cannotUnmarshal j "hipchat.ErrorResponse")

/-- json.Unmarshal into the anonymous struct with the single string field
Status used by PostMessage; returns the Status field. -/
def unmarshalStatus : Json → Except String String
  | .null => .ok ""
  | .obj fs =>
    fs.foldlM (fun s kv =>
      if lowerKey kv.1 == "status" then decodeStringField s kv.2 else .ok s) ""
  | j => .error (cannotUnmarshal j "statusResponse")

/-- json.Unmarshal into a field of Go type pointer-to-HipchatError: JSON null
sets the pointer to nil, otherwise a fresh zero value is allocated (when the
pointer is nil) and filled. -/
def unmarshalPtrHipchatError (cur : Option HipchatError) : Json → Except String (Option HipchatError)
  | .null => .ok none
  | j => (unmarshalHipchatError (cur.getD default) j).map some

/-- json.Unmarshal into an AuthResponse value (fields Success and Error, both
pointers to HipchatError); returns the pair (Success, Error). -/
def unmarshalAuthResponse : Json → Except String (Option HipchatError × Option HipchatError)
  | .null => .ok (none, none)
  | .obj fs =>
    fs.foldlM (fun acc kv =>
      let k := lowerKey kv.1
      if k == "success" then (unmarshalPtrHipchatError acc.1 kv.2).map (fun x => (x, acc.2))
      else if k == "error" then (unmarshalPtrHipchatError acc.2 kv.2).map (fun x => (acc.1, x))
      else .ok acc) ((none : Option HipchatError), (none : Option HipchatError))
  | j => .error (cannotUnmarshal j "hipchat.AuthResponse")

/-- Room from the source, with its json tags: room_id, name, topic,
last_active, created, is_archived, is_private, owner_user_id, xmpp_jid. -/
structure Room where
  RoomId : Int
  Name : String
  Topic : String
  LastActive : Int
  Created : Int
  Archived : Bool
  Private : Bool
  OwnerUserId : Int
  XMPPJabberId : String
deriving Repr, DecidableEq

instance : Inhabited Room := ⟨⟨0, "", "", 0, 0, false, false, 0, ""⟩⟩

/-- json.Unmarshal into a Room value, by its json tags. -/
def unmarshalRoom (cur : Room) : Json → Except String Room
  | .null => .ok cur
  | .obj fs =>
    fs.foldlM (fun r kv =>
      let k := lowerKey kv.1
      if k == "room_id" then (decodeIntField r.RoomId kv.2).map (fun n => { r with RoomId := n })
      else if k == "name" then (decodeStringField r.Name kv.2).map (fun s => { r with Name := s })
      else if k == "topic" then (decodeStringField r.Topic kv.2).map (fun s => { r with Topic := s })
      else if k == "last_active" then (decodeIntField r.LastActive kv.2).map (fun n => { r with LastActive := n })
      else if k == "created" then (decodeIntField r.Created kv.2).map (fun n => { r with Created := n })
      else if k == "is_archived" then (decodeBoolField r.Archived kv.2).map (fun b => { r with Archived := b })
      else if k == "is_private" then (decodeBoolField r.Private kv.2).map (fun b => { r with Private := b })
      else if k == "owner_user_id" then (decodeIntField r.OwnerUserId kv.2).map (fun n => { r with OwnerUserId := n })
      else if k == "xmpp_jid" then (decodeStringField r.XMPPJabberId kv.2).map (fun s => { r with XMPPJabberId := s })
      else .ok r) cur
  | j => .error (cannotUnmarshal j "hipchat.Room")

/-- json.Unmarshal into a slice of Room: null gives the nil slice, an array
decodes each element into a fresh zero Room. -/
def unmarshalRoomSlice : Json → Except String (List Room)
  | .null => .ok []
  | .arr xs => xs.mapM (unmarshalRoom default)
  | j => .error (cannotUnmarshal j "[]hipchat.Room")

/-- json.Unmarshal into the anonymous struct with the single field Rooms used
by RoomList; returns the Rooms field. -/
def unmarshalRoomsResponse : Json → Except String (List Room)
  | .null => .ok []
  | .obj fs =>
    fs.foldlM (fun rooms kv =>
      if lowerKey kv.1 == "rooms" then unmarshalRoomSlice kv.2 else .ok rooms) []
  | j => .error (cannotUnmarshal j "roomsResponse")

/-- Modelled from the spec: the Message struct returned by RoomHistory is
declared in a source file that is not part of the provided sources; the spec
says its fields are opaque beyond JSON decoding, so it is modelled as a
wrapper around the decoded JSON value. -/
structure Message where
  raw : Json

/-- Modelled from the spec: json.Unmarshal into a slice of Message; since the
Message fields are opaque to the spec, each array element is accepted as is. -/
def unmarshalMessageSlice : Json → Except String (List Message)
  | .null => .ok []
  | .arr xs => .ok (xs.map Message.mk)
  | j => .error (cannotUnmarshal j "[]hipchat.Message")

/-- json.Unmarshal into the anonymous struct with the single field Messages
used by RoomHistory; returns the Messages field. -/
def unmarshalMessagesResponse : Json → Except String (List Message)
  | .null => .ok []
  | .obj fs =>
    fs.foldlM (fun msgs kv =>
      if lowerKey kv.1 == "messages" then unmarshalMessageSlice kv.2 else .ok msgs) []
  | j => .error (cannotUnmarshal j "messagesResponse")

/-- A response body as seen by json.Unmarshal: either not valid JSON (with
the parse-error message the parser reports) or a JSON value. -/
inductive Body where
  | notJson (msg : String)
  | json (j : Json)

def unmarshalStatusBody : Body → Except String String
  | .notJson m => .error m
  | .json j => unmarshalStatus j

def unmarshalAuthBody : Body → Except String (Option HipchatError × Option HipchatError)
  | .notJson m => .error m
  | .json j => unmarshalAuthResponse j

def unmarshalRoomsBody : Body → Except String (List Room)
  | .notJson m => .error m
  | .json j => unmarshalRoomsResponse j

def unmarshalMessagesBody : Body → Except String (List Message)
  | .notJson m => .error m
  | .json j => unmarshalMessagesResponse j

/-- A Go error value as returned by the operations: errors.New strings,
json.Unmarshal failures, HipchatError values, and transport failures from the
net/http calls. -/
inductive GoError where
  | errorString (msg : String)
  | jsonError (msg : String)
  | hipchat (e : HipchatError)
  | transport (msg : String)
deriving Repr, DecidableEq

/-- The message of a Go error value (its Error method). -/
def GoError.message : GoError → String
  | .errorString m => m
  | .jsonError m => m
  | .hipchat e => e.Error
  | .transport m => m

/-- getError from the source: unmarshals an ErrorResponse from the body and
returns its Error field; a failed unmarshal is returned as the parse error. -/
def getError : Body → GoError
  | .notJson m => .jsonError m
  | .json j =>
    match unmarshalErrorResponse j with
    | .error m => .jsonError m
    | .ok e => .hipchat e

/-- UTF-8 bytes of a character, as natural numbers. -/
def utf8Bytes (c : Char) : List Nat :=
  let n := c.toNat
  if n < 0x80 then [n]
  else if n < 0x800 then [0xC0 + n / 0x40, 0x80 + n % 0x40]
  else if n < 0x10000 then [0xE0 + n / 0x1000, 0x80 + (n / 0x40) % 0x40, 0x80 + n % 0x40]
  else [0xF0 + n / 0x40000, 0x80 + (n / 0x1000) % 0x40, 0x80 + (n / 0x40) % 0x40, 0x80 + n % 0x40]

/-- Go url.QueryEscape keeps a byte unescaped when it is alphanumeric or one
of - _ . ~ (a space becomes +, handled separately). -/
def isUnreservedByte (b : Nat) : Bool :=
  (0x41 ≤ b && b ≤ 0x5A) || (0x61 ≤ b && b ≤ 0x7A) || (0x30 ≤ b && b ≤ 0x39) ||
    b == 0x2D || b == 0x5F || b == 0x2E || b == 0x7E

/-- Upper-case hexadecimal digit of a value below 16. -/
def hexDigit (n : Nat) : Char :=
  if n < 10 then Char.ofNat (0x30 + n) else Char.ofNat (0x37 + n)

/-- Percent-escaping of one byte, as Go url.QueryEscape does it: space
becomes +, unreserved bytes stay, every other byte becomes %XX. -/
def escapeByte (b : Nat) : List Char :=
  if b == 0x20 then ['+']
  else if isUnreservedByte b then [Char.ofNat b]
  else ['%', hexDigit (b / 16), hexDigit (b % 16)]

/-- Go url.QueryEscape: escape every UTF-8 byte of the string. -/
def queryEscape (s : String) : String :=
  ⟨(s.data.flatMap utf8Bytes).flatMap escapeByte⟩

def defaultBaseURL : String := "https://api.hipchat.com/v1"

def ResponseStatusSent : String := "sent"

/-- MessageRequest from the source (current generation; the legacy struct is
identical except that it lacks AuthTest, which its operations never read). -/
structure MessageRequest where
  RoomId : String
  From : String
  Message : String
  MessageFormat : String := ""
  Notify : Bool := false
  Color : String := ""
  AuthTest : Bool := false
deriving Repr, DecidableEq

/-- Client of the current generation: auth token plus configurable base
URL. -/
structure Client where
  AuthToken : String
  BaseURL : String
deriving Repr, DecidableEq

/-- NewClient from the source: token plus the default public base URL. -/
def NewClient (authToken : String) : Client :=
  { AuthToken := authToken, BaseURL := defaultBaseURL }

/-- One outbound HTTP request: method, full URI, and the form payload (url
Values, empty for GET). -/
structure HttpRequest where
  method : String
  uri : String
  form : List (String × List String)
deriving Repr, DecidableEq

/-- Result of one HTTP round trip, including the read of the body: either a
transport or read failure, or a status code with the body handed to
json.Unmarshal. -/
inductive HttpResult where
  | transportError (msg : String)
  | response (statusCode : Nat) (body : Body)

/-- Outcome of one client operation: the client after the call (the receiver
is a pointer in Go, so its fields can change), the requests issued, and the
Go return value. -/
structure OpResult (α : Type) where
  client : Client
  trace : List HttpRequest
  result : Except GoError α

/-- urlValuesFromMessageRequest from the source: validates the three required
fields, then builds the form payload. -/
def urlValuesFromMessageRequest (req : MessageRequest) :
    Except GoError (List (String × List String)) :=
  if req.RoomId.length == 0 || req.From.length == 0 || req.Message.length == 0 then
    .error (.errorString "The RoomId, From, and Message fields are all required.")
  else
    .ok ([("room_id", [req.RoomId]), ("from", [req.From]), ("message", [req.Message])]
      ++ (if req.Notify then [("notify", ["1"])] else [])
      ++ (if req.Color.length > 0 then [("color", [req.Color])] else [])
      ++ (if req.MessageFormat.length > 0 then [("message_format", [req.MessageFormat])] else []))

/-- PostMessage from the source (current generation): lazy BaseURL default,
URI with the escaped token (plus auth_test when requested), validation,
one POST, then the auth-test or the status branch. -/
def Client.PostMessage (c : Client) (req : MessageRequest)
    (net : HttpRequest → HttpResult) : OpResult Unit :=
  let c := if c.BaseURL.length == 0 then { c with BaseURL := defaultBaseURL } else c
  let uri := c.BaseURL ++ "/rooms/message?auth_token=" ++ queryEscape c.AuthToken
  let uri := if req.AuthTest then uri ++ "&auth_test=true" else uri
  match urlValuesFromMessageRequest req with
  | .error e => ⟨c, [], .error e⟩
  | .ok payload =>
    let httpReq : HttpRequest := ⟨"POST", uri, payload⟩
    match net httpReq with
    | .transportError m => ⟨c, [httpReq], .error (.transport m)⟩
    | .response _ body =>
      if req.AuthTest then
        match unmarshalAuthBody body with
        | .error m => ⟨c, [httpReq], .error (.jsonError m)⟩
        | .ok (_, some e) => ⟨c, [httpReq], .error (.hipchat e)⟩
        | .ok (_, none) => ⟨c, [httpReq], .ok ()⟩
      else
        match unmarshalStatusBody body with
        | .error m => ⟨c, [httpReq], .error (.jsonError m)⟩
        | .ok s =>
          if s != ResponseStatusSent then ⟨c, [httpReq], .error (getError body)⟩
          else ⟨c, [httpReq], .ok ()⟩

/-- RoomHistory from the source: GET with token, room id, date and timezone
all query-escaped; non-200 goes through getError, 200 decodes Messages. -/
def Client.RoomHistory (c : Client) (id date tz : String)
    (net : HttpRequest → HttpResult) : OpResult (List Message) :=
  let c := if c.BaseURL.length == 0 then { c with BaseURL := defaultBaseURL } else c
  let uri := c.BaseURL ++ "/rooms/history?auth_token=" ++ queryEscape c.AuthToken ++
    "&room_id=" ++ queryEscape id ++ "&date=" ++ queryEscape date ++
    "&timezone=" ++ queryEscape tz
  let httpReq : HttpRequest := ⟨"GET", uri, []⟩
  match net httpReq with
  | .transportError m => ⟨c, [httpReq], .error (.transport m)⟩
  | .response code body =>
    if code != 200 then ⟨c, [httpReq], .error (getError body)⟩
    else
      match unmarshalMessagesBody body with
      | .error m => ⟨c, [httpReq], .error (.jsonError m)⟩
      | .ok msgs => ⟨c, [httpReq], .ok msgs⟩

/-- RoomList from the source (current generation): GET with the escaped
token; non-200 goes through getError, 200 decodes Rooms. -/
def Client.RoomList (c : Client) (net : HttpRequest → HttpResult) :
    OpResult (List Room) :=
  let c := if c.BaseURL.length == 0 then { c with BaseURL := defaultBaseURL } else c
  let uri := c.BaseURL ++ "/rooms/list?auth_token=" ++ queryEscape c.AuthToken
  let httpReq : HttpRequest := ⟨"GET", uri, []⟩
  match net httpReq with
  | .transportError m => ⟨c, [httpReq], .error (.transport m)⟩
  | .response code body =>
    if code != 200 then ⟨c, [httpReq], .error (getError body)⟩
    else
      match unmarshalRoomsBody body with
      | .error m => ⟨c, [httpReq], .error (.jsonError m)⟩
      | .ok rooms => ⟨c, [httpReq], .ok rooms⟩

namespace Legacy

/-- The package-level baseURL constant of the legacy generation. -/
def baseURL : String := "https://api.hipchat.com/v1"

/-- Client of the legacy generation: only the token. -/
structure Client where
  AuthToken : String
deriving Repr, DecidableEq

/-- urlValuesFromRequest of the legacy generation; its body is line for line
the body of urlValuesFromMessageRequest (the legacy request struct has no
AuthTest field, which this function does not read anyway). -/
def urlValuesFromRequest (req : MessageRequest) :
    Except GoError (List (String × List String)) :=
  if req.RoomId.length == 0 || req.From.length == 0 || req.Message.length == 0 then
    .error (.errorString "The RoomId, From, and Message fields are all required.")
  else
    .ok ([("room_id", [req.RoomId]), ("from", [req.From]), ("message", [req.Message])]
      ++ (if req.Notify then [("notify", ["1"])] else [])
      ++ (if req.Color.length > 0 then [("color", [req.Color])] else [])
      ++ (if req.MessageFormat.length > 0 then [("message_format", [req.MessageFormat])] else []))

/-- PostMessage of the legacy generation: the URI interpolates the raw
AuthToken with no query escaping and always uses the baseURL constant; a
non-sent status yields a fixed errors.New message. -/
def Client.PostMessage (c : Client) (req : MessageRequest)
    (net : HttpRequest → HttpResult) : List HttpRequest × Except GoError Unit :=
  let uri := baseURL ++ "/rooms/message?auth_token=" ++ c.AuthToken
  match urlValuesFromRequest req with
  | .error e => ([], .error e)
  | .ok payload =>
    let httpReq : HttpRequest := ⟨"POST", uri, payload⟩
    match net httpReq with
    | .transportError m => ([httpReq], .error (.transport m))
    | .response _ body =>
      match unmarshalStatusBody body with
      | .error m => ([httpReq], .error (.jsonError m))
      | .ok s =>
        if s != ResponseStatusSent then
          ([httpReq], .error (.errorString "PostMessage: response 'status' field was not 'sent'."))
        else ([httpReq], .ok ())

/-- RoomList of the legacy generation: same URI as the current one over the
default base URL; on non-200 it unmarshals an ErrorResponse inline and wraps
the Message field with errors.New. -/
def Client.RoomList (c : Client) (net : HttpRequest → HttpResult) :
    List HttpRequest × Except GoError (List Room) :=
  let uri := baseURL ++ "/rooms/list?auth_token=" ++ queryEscape c.AuthToken
  let httpReq : HttpRequest := ⟨"GET", uri, []⟩
  match net httpReq with
  | .transportError m => ([httpReq], .error (.transport m))
  | .response code body =>
    if code != 200 then
      match body with
      | .notJson m => ([httpReq], .error (.jsonError m))
      | .json j =>
        match unmarshalErrorResponse j with
        | .error m => ([httpReq], .error (.jsonError m))
        | .ok e => ([httpReq], .error (.errorString e.Message))
    else
      match unmarshalRoomsBody body with
      | .error m => ([httpReq], .error (.jsonError m))
      | .ok rooms => ([httpReq], .ok rooms)

end Legacy

/-- Whether a JSON value is an object holding a field whose key matches the
Error field of ErrorResponse case-insensitively; captures the side condition
of a body that contains no error field. -/
def hasErrorField : Json → Bool
  | .obj fs => fs.any (fun kv => lowerKey kv.1 == "error")
  | _ => false

theorem string_length_eq_zero_iff (s : String) : s.length = 0 ↔ s = "" := by
  cases s with
  | mk data =>
    cases data with
    | nil => simp [String.length]
    | cons c cs => simp [String.length, String.ext_iff]

theorem length_beq_false_of_ne {s : String} (h : s ≠ "") : (s.length == 0) = false := by
  simp only [beq_eq_false_iff_ne, ne_eq]
  intro hl
  exact h ((string_length_eq_zero_iff s).mp hl)

theorem string_length_pos_iff (s : String) : 0 < s.length ↔ s ≠ "" := by
  rw [Nat.pos_iff_ne_zero]
  exact not_congr (string_length_eq_zero_iff s)

theorem required_cond_false {req : MessageRequest} (hroom : req.RoomId ≠ "")
    (hfrom : req.From ≠ "") (hmsg : req.Message ≠ "") :
    (req.RoomId.length == 0 || req.From.length == 0 || req.Message.length == 0) = false := by
  simp [length_beq_false_of_ne hroom, length_beq_false_of_ne hfrom, length_beq_false_of_ne hmsg]

/-- C1: for every MessageRequest in which RoomId, From, or Message is the
empty string, PostMessage returns the validation error and the trace of
outbound HTTP calls is empty. -/
theorem postMessage_empty_required_fields (c : Client) (req : MessageRequest)
    (net : HttpRequest → HttpResult)
    (h : req.RoomId = "" ∨ req.From = "" ∨ req.Message = "") :
    (c.PostMessage req net).result =
      .error (.errorString "The RoomId, From, and Message fields are all required.") ∧
    (c.PostMessage req net).trace = [] := by
  have hcond : (req.RoomId.length == 0 || req.From.length == 0 || req.Message.length == 0) = true := by
    rcases h with h | h | h <;> simp [h]
  unfold Client.PostMessage urlValuesFromMessageRequest
  simp [hcond]

/-- Witness for C1 at a concrete request with empty From. -/
theorem postMessage_empty_required_fields_witness :
    (Client.PostMessage ⟨"t", ""⟩ { RoomId := "r", From := "", Message := "m" }
        (fun _ => .transportError "down")).result =
      .error (.errorString "The RoomId, From, and Message fields are all required.") ∧
    (Client.PostMessage ⟨"t", ""⟩ { RoomId := "r", From := "", Message := "m" }
        (fun _ => .transportError "down")).trace = [] :=
  postMessage_empty_required_fields _ _ _ (Or.inr (Or.inl rfl))

/-- C2: on the non-auth-test path with the required fields non-empty, when
the response body decodes as the status struct, PostMessage succeeds exactly
when the Status field is sent, and otherwise returns the error produced by
the shared decoder getError on that same body. -/
theorem postMessage_status_sent_iff (c : Client) (req : MessageRequest)
    (code : Nat) (j : Json) (s : String)
    (hauth : req.AuthTest = false)
    (hroom : req.RoomId ≠ "") (hfrom : req.From ≠ "") (hmsg : req.Message ≠ "")
    (hs : unmarshalStatus j = .ok s) :
    ((c.PostMessage req (fun _ => .response code (.json j))).result = .ok () ↔ s = "sent") ∧
    (s ≠ "sent" →
      (c.PostMessage req (fun _ => .response code (.json j))).result =
        .error (getError (.json j))) := by
  unfold Client.PostMessage urlValuesFromMessageRequest unmarshalStatusBody
  simp [required_cond_false hroom hfrom hmsg, hauth, hs]
  by_cases hsent : s = "sent" <;> simp [hsent, ResponseStatusSent]

/-- Witness for C2: the queued body of the spec yields the decoded error
whose message is x. -/
theorem postMessage_status_sent_iff_witness :
    (((Client.PostMessage ⟨"t", defaultBaseURL⟩ { RoomId := "r", From := "f", Message := "m" }
        (fun _ => .response 200 (.json (.obj [("status", .str "queued"),
          ("error", .obj [("code", .num 1), ("message", .str "x")])])))).result = .ok ()
      ↔ "queued" = "sent") ∧
     ("queued" ≠ "sent" →
      (Client.PostMessage ⟨"t", defaultBaseURL⟩ { RoomId := "r", From := "f", Message := "m" }
        (fun _ => .response 200 (.json (.obj [("status", .str "queued"),
          ("error", .obj [("code", .num 1), ("message", .str "x")])])))).result =
        .error (getError (.json (.obj [("status", .str "queued"),
          ("error", .obj [("code", .num 1), ("message", .str "x")])]))))) ∧
    getError (.json (.obj [("status", .str "queued"),
        ("error", .obj [("code", .num 1), ("message", .str "x")])])) =
      .hipchat ⟨1, "", "x"⟩ :=
  ⟨postMessage_status_sent_iff ⟨"t", defaultBaseURL⟩ { RoomId := "r", From := "f", Message := "m" }
      200 (.obj [("status", .str "queued"), ("error", .obj [("code", .num 1), ("message", .str "x")])])
      "queued" rfl (by decide) (by decide) (by decide) (by rfl),
   by rfl⟩

/-- C3: with the required fields non-empty, the constructed form parameters
hold exactly the keys room_id, from and message bound to those fields, plus
notify bound to 1 exactly when Notify is set, and color and message_format
exactly when those fields are non-empty. -/
theorem urlValues_exact_keys (req : MessageRequest)
    (hroom : req.RoomId ≠ "") (hfrom : req.From ≠ "") (hmsg : req.Message ≠ "") :
    ∃ l, urlValuesFromMessageRequest req = .ok l ∧
      ∀ k v, (k, v) ∈ l ↔
        ((k = "room_id" ∧ v = [req.RoomId]) ∨ (k = "from" ∧ v = [req.From]) ∨
         (k = "message" ∧ v = [req.Message]) ∨
         (k = "notify" ∧ v = ["1"] ∧ req.Notify = true) ∨
         (k = "color" ∧ v = [req.Color] ∧ req.Color ≠ "") ∨
         (k = "message_format" ∧ v = [req.MessageFormat] ∧ req.MessageFormat ≠ "")) := by
  unfold urlValuesFromMessageRequest
  rw [required_cond_false hroom hfrom hmsg]
  refine ⟨_, rfl, ?_⟩
  intro k v
  by_cases hn : req.Notify <;> by_cases hc : req.Color = "" <;>
    by_cases hmf : req.MessageFormat = "" <;>
    simp [hn, hc, hmf, string_length_pos_iff]

/-- Witness for C3 at a concrete request with Notify set, a color and no
message format. -/
theorem urlValues_exact_keys_witness :
    ∃ l, urlValuesFromMessageRequest
        { RoomId := "r", From := "f", Message := "m", Notify := true, Color := "red" } = .ok l ∧
      ∀ k v, (k, v) ∈ l ↔
        ((k = "room_id" ∧ v = ["r"]) ∨ (k = "from" ∧ v = ["f"]) ∨
         (k = "message" ∧ v = ["m"]) ∨
         (k = "notify" ∧ v = ["1"] ∧ true = true) ∨
         (k = "color" ∧ v = ["red"] ∧ "red" ≠ "") ∨
         (k = "message_format" ∧ v = [""] ∧ "" ≠ "")) :=
  urlValues_exact_keys { RoomId := "r", From := "f", Message := "m", Notify := true, Color := "red" }
    (by decide) (by decide) (by decide)

/-- C4: for every non-200 response, RoomList and RoomHistory return no result
together with the error produced by getError on the response body. -/
theorem non200_returns_decoded_error (c : Client) (code : Nat) (body : Body)
    (id date tz : String) (hcode : code ≠ 200) :
    (Client.RoomList c (fun _ => .response code body)).result = .error (getError body) ∧
    (Client.RoomHistory c id date tz (fun _ => .response code body)).result =
      .error (getError body) := by
  have h : (code != 200) = true := by simp [hcode]
  unfold Client.RoomList Client.RoomHistory
  simp [h]

/-- Witness for C4: a 401 body with the Unauthorized error decodes to the
error whose message is bad token, for both operations. -/
theorem non200_returns_decoded_error_witness :
    ((Client.RoomList ⟨"t", defaultBaseURL⟩ (fun _ => .response 401 (.json (.obj [("error",
        .obj [("code", .num 401), ("type", .str "Unauthorized"), ("message", .str "bad token")])])))).result =
      .error (getError (.json (.obj [("error",
        .obj [("code", .num 401), ("type", .str "Unauthorized"), ("message", .str "bad token")])]))) ∧
     (Client.RoomHistory ⟨"t", defaultBaseURL⟩ "1" "d" "tz" (fun _ => .response 401 (.json (.obj [("error",
        .obj [("code", .num 401), ("type", .str "Unauthorized"), ("message", .str "bad token")])])))).result =
      .error (getError (.json (.obj [("error",
        .obj [("code", .num 401), ("type", .str "Unauthorized"), ("message", .str "bad token")])])))) ∧
    getError (.json (.obj [("error",
        .obj [("code", .num 401), ("type", .str "Unauthorized"), ("message", .str "bad token")])])) =
      .hipchat ⟨401, "Unauthorized", "bad token"⟩ ∧
    GoError.message (.hipchat ⟨401, "Unauthorized", "bad token"⟩) = "bad token" :=
  ⟨non200_returns_decoded_error ⟨"t", defaultBaseURL⟩ 401 (.json (.obj [("error",
      .obj [("code", .num 401), ("type", .str "Unauthorized"), ("message", .str "bad token")])]))
      "1" "d" "tz" (by decide),
   by rfl, by rfl⟩

/-- C5: getError returns the decoded Error field whenever the body is JSON
whose Error field decodes, returns the parse failure whenever the body is not
valid JSON, and in the model its return type shows it never signals
success. -/
theorem getError_spec (body : Body) :
    (∀ m, body = .notJson m → getError body = .jsonError m) ∧
    (∀ j e, body = .json j → unmarshalErrorResponse j = .ok e → getError body = .hipchat e) := by
  constructor
  · rintro m rfl
    rfl
  · rintro j e rfl h
    simp [getError, h]

/-- Witness for C5 at a parse failure and at a decodable error body. -/
theorem getError_spec_witness :
    getError (.notJson "unexpected end of JSON input") =
      .jsonError "unexpected end of JSON input" ∧
    getError (.json (.obj [("error", .obj [("message", .str "boom")])])) =
      .hipchat ⟨0, "", "boom"⟩ :=
  ⟨(getError_spec (.notJson "unexpected end of JSON input")).1 _ rfl,
   (getError_spec (.json (.obj [("error", .obj [("message", .str "boom")])]))).2 _
     ⟨0, "", "boom"⟩ rfl (by rfl)⟩

/-- C6 counterexample: the body oops is valid JSON, yet RoomList on a 200
response returns an unmarshalling error rather than a decoded room list. -/
theorem roomList_valid_json_cex :
    (Client.RoomList ⟨"t", defaultBaseURL⟩
        (fun _ => .response 200 (.json (.str "oops")))).result =
      .error (.jsonError "json: cannot unmarshal string into Go value of type roomsResponse") := by
  rfl

/-- C6 amended: for every 200 response whose body decodes as the rooms
struct, RoomList returns the decoded list without error. -/
theorem roomList_200_decodes (c : Client) (j : Json) (rooms : List Room)
    (h : unmarshalRoomsResponse j = .ok rooms) :
    (Client.RoomList c (fun _ => .response 200 (.json j))).result = .ok rooms := by
  unfold Client.RoomList unmarshalRoomsBody
  simp [h]

/-- Witness for C6: the Lobby body decodes to the single expected Room, and
an object with no rooms key decodes to the empty list. -/
theorem roomList_200_decodes_witness :
    (Client.RoomList ⟨"t", defaultBaseURL⟩ (fun _ => .response 200 (.json (.obj [("rooms",
        .arr [.obj [("room_id", .num 1), ("name", .str "Lobby"), ("is_archived", .bool false)]])])))).result =
      .ok [{ RoomId := 1, Name := "Lobby", Topic := "", LastActive := 0, Created := 0,
             Archived := false, Private := false, OwnerUserId := 0, XMPPJabberId := "" }] ∧
    (Client.RoomList ⟨"t", defaultBaseURL⟩ (fun _ => .response 200 (.json (.obj [])))).result =
      .ok [] :=
  ⟨roomList_200_decodes ⟨"t", defaultBaseURL⟩ (.obj [("rooms",
      .arr [.obj [("room_id", .num 1), ("name", .str "Lobby"), ("is_archived", .bool false)]])])
      [{ RoomId := 1, Name := "Lobby", Topic := "", LastActive := 0, Created := 0,
         Archived := false, Private := false, OwnerUserId := 0, XMPPJabberId := "" }] (by rfl),
   roomList_200_decodes ⟨"t", defaultBaseURL⟩ (.obj []) [] (by rfl)⟩

theorem errorFold_no_key (fs : List (String × Json)) (e : HipchatError)
    (h : ∀ kv ∈ fs, (lowerKey kv.1 == "error") = false) :
    List.foldlM (fun e kv =>
      if lowerKey kv.1 == "error" then unmarshalHipchatError e kv.2 else .ok e) e fs = .ok e := by
  induction fs generalizing e with
  | nil => rfl
  | cons kv t ih =>
    have hk := h kv (List.mem_cons_self _ _)
    simp only [List.foldlM, hk, if_false, Bool.false_eq_true]
    exact ih e (fun kv2 hm => h kv2 (List.mem_cons_of_mem _ hm))

theorem unmarshalErrorResponse_no_error_field (j : Json) (s : String)
    (hs : unmarshalStatus j = .ok s) (hne : hasErrorField j = false) :
    unmarshalErrorResponse j = .ok default := by
  cases j with
  | null => rfl
  | obj fs =>
    have h : ∀ kv ∈ fs, (lowerKey kv.1 == "error") = false := by
      simp only [hasErrorField, List.any_eq_false] at hne
      intro kv hm
      exact Bool.eq_false_iff.mpr (hne kv hm)
    exact errorFold_no_key fs default h
  | bool b => simp [unmarshalStatus] at hs
  | num n => simp [unmarshalStatus] at hs
  | str t => simp [unmarshalStatus] at hs
  | arr xs => simp [unmarshalStatus] at hs

/-- C7: on the non-auth-test path, a body that decodes with a Status other
than sent and holds no error field makes PostMessage return the zero
HipchatError, whose message is the empty string. -/
theorem postMessage_unknown_status_zero_error (c : Client) (req : MessageRequest)
    (code : Nat) (j : Json) (s : String)
    (hauth : req.AuthTest = false)
    (hroom : req.RoomId ≠ "") (hfrom : req.From ≠ "") (hmsg : req.Message ≠ "")
    (hs : unmarshalStatus j = .ok s) (hns : s ≠ "sent")
    (hne : hasErrorField j = false) :
    (c.PostMessage req (fun _ => .response code (.json j))).result =
      .error (.hipchat ⟨0, "", ""⟩) ∧
    GoError.message (.hipchat ⟨0, "", ""⟩) = "" := by
  have hget : getError (.json j) = .hipchat default := by
    simp [getError, unmarshalErrorResponse_no_error_field j s hs hne]
  have hbne : (s != ResponseStatusSent) = true := by simp [ResponseStatusSent, hns]
  unfold Client.PostMessage urlValuesFromMessageRequest unmarshalStatusBody
  simp [required_cond_false hroom hfrom hmsg, hauth, hs, hbne, hget]
  exact ⟨rfl, rfl⟩

/-- Witness for C7: the body with only the queued status yields the zero
HipchatError. -/
theorem postMessage_unknown_status_zero_error_witness :
    (Client.PostMessage ⟨"t", defaultBaseURL⟩ { RoomId := "r", From := "f", Message := "m" }
        (fun _ => .response 200 (.json (.obj [("status", .str "queued")])))).result =
      .error (.hipchat ⟨0, "", ""⟩) ∧
    GoError.message (.hipchat ⟨0, "", ""⟩) = "" :=
  postMessage_unknown_status_zero_error ⟨"t", defaultBaseURL⟩
    { RoomId := "r", From := "f", Message := "m" } 200 (.obj [("status", .str "queued")])
    "queued" rfl (by decide) (by decide) (by decide) (by rfl) (by decide) (by rfl)

theorem RoomList_shape (c : Client) (net : HttpRequest → HttpResult) :
    (Client.RoomList c net).client =
      (if c.BaseURL.length == 0 then { c with BaseURL := defaultBaseURL } else c) ∧
    (Client.RoomList c net).trace = [⟨"GET",
      (if c.BaseURL.length == 0 then { c with BaseURL := defaultBaseURL } else c).BaseURL ++
        "/rooms/list?auth_token=" ++ queryEscape c.AuthToken, []⟩] := by
  unfold Client.RoomList
  cases hb : c.BaseURL.length == 0 <;>
    simp only [hb, if_true, if_false, Bool.false_eq_true, ite_true, ite_false] <;>
    constructor <;> (repeat' split) <;> rfl

theorem RoomHistory_shape (c : Client) (id date tz : String) (net : HttpRequest → HttpResult) :
    (Client.RoomHistory c id date tz net).client =
      (if c.BaseURL.length == 0 then { c with BaseURL := defaultBaseURL } else c) ∧
    (Client.RoomHistory c id date tz net).trace = [⟨"GET",
      (if c.BaseURL.length == 0 then { c with BaseURL := defaultBaseURL } else c).BaseURL ++
        "/rooms/history?auth_token=" ++ queryEscape c.AuthToken ++ "&room_id=" ++ queryEscape id ++
        "&date=" ++ queryEscape date ++ "&timezone=" ++ queryEscape tz, []⟩] := by
  unfold Client.RoomHistory
  cases hb : c.BaseURL.length == 0 <;>
    simp only [hb, if_true, if_false, Bool.false_eq_true, ite_true, ite_false] <;>
    constructor <;> (repeat' split) <;> rfl

theorem PostMessage_client (c : Client) (req : MessageRequest) (net : HttpRequest → HttpResult) :
    (c.PostMessage req net).client =
      (if c.BaseURL.length == 0 then { c with BaseURL := defaultBaseURL } else c) := by
  unfold Client.PostMessage
  cases hb : c.BaseURL.length == 0 <;>
    simp only [hb, if_true, if_false, Bool.false_eq_true, ite_true, ite_false] <;>
    (repeat' split) <;> rfl

theorem PostMessage_trace (c : Client) (req : MessageRequest)
    (net : HttpRequest → HttpResult) (payload : List (String × List String))
    (h : urlValuesFromMessageRequest req = .ok payload) (hauth : req.AuthTest = false) :
    (c.PostMessage req net).trace = [⟨"POST",
      (if c.BaseURL.length == 0 then { c with BaseURL := defaultBaseURL } else c).BaseURL ++
        "/rooms/message?auth_token=" ++ queryEscape c.AuthToken, payload⟩] := by
  unfold Client.PostMessage
  cases hb : c.BaseURL.length == 0 <;>
    simp only [hb, hauth, h, if_true, if_false, Bool.false_eq_true, ite_true, ite_false] <;>
    (repeat' split) <;> rfl

/-- C8 counterexample: the legacy PostMessage in the repository interpolates
the AuthToken into the request URL with no query escaping: at the token a&b
the issued URI keeps the raw ampersand and differs from the URI built with
the escaped token, refuting the claim for every operation of the
repository. -/
theorem request_urls_cex :
    (Legacy.Client.PostMessage ⟨"a&b"⟩ { RoomId := "r", From := "f", Message := "m" }
        (fun _ => .response 200 (.json .null))).1 =
      [⟨"POST", "https://api.hipchat.com/v1/rooms/message?auth_token=a&b",
        [("room_id", ["r"]), ("from", ["f"]), ("message", ["m"])]⟩] ∧
    "https://api.hipchat.com/v1/rooms/message?auth_token=a&b" ≠
      "https://api.hipchat.com/v1/rooms/message?auth_token=" ++ queryEscape "a&b" := by
  constructor
  · rfl
  · decide

/-- C8 amended: in the current implementation, every operation sends its one
request to rooms/message, rooms/list or rooms/history under the effective
base URL (BaseURL, or the default endpoint when BaseURL is empty) with the
auth_token query parameter URL-escaped; the legacy PostMessage instead uses
the fixed default base URL and embeds the token unescaped. -/
theorem request_urls_current (c : Client) (req : MessageRequest) (id date tz : String)
    (net : HttpRequest → HttpResult)
    (hauth : req.AuthTest = false)
    (hroom : req.RoomId ≠ "") (hfrom : req.From ≠ "") (hmsg : req.Message ≠ "") :
    ∃ payload, urlValuesFromMessageRequest req = .ok payload ∧
      ((c.PostMessage req net).trace = [⟨"POST",
        (if c.BaseURL = "" then defaultBaseURL else c.BaseURL) ++
          "/rooms/message?auth_token=" ++ queryEscape c.AuthToken, payload⟩] ∧
       (Client.RoomList c net).trace = [⟨"GET",
        (if c.BaseURL = "" then defaultBaseURL else c.BaseURL) ++
          "/rooms/list?auth_token=" ++ queryEscape c.AuthToken, []⟩] ∧
       (Client.RoomHistory c id date tz net).trace = [⟨"GET",
        (if c.BaseURL = "" then defaultBaseURL else c.BaseURL) ++
          "/rooms/history?auth_token=" ++ queryEscape c.AuthToken ++ "&room_id=" ++ queryEscape id ++
          "&date=" ++ queryEscape date ++ "&timezone=" ++ queryEscape tz, []⟩]) := by
  obtain ⟨payload, hv⟩ : ∃ p, urlValuesFromMessageRequest req = .ok p := by
    unfold urlValuesFromMessageRequest
    rw [required_cond_false hroom hfrom hmsg]
    exact ⟨_, rfl⟩
  refine ⟨payload, hv, ?_, ?_, ?_⟩
  · rw [PostMessage_trace c req net payload hv hauth]
    by_cases hb : c.BaseURL = ""
    · have hlen : (c.BaseURL.length == 0) = true := by simp [hb]
      simp [hlen, hb]
    · simp [length_beq_false_of_ne hb, hb]
  · rw [(RoomList_shape c net).2]
    by_cases hb : c.BaseURL = ""
    · have hlen : (c.BaseURL.length == 0) = true := by simp [hb]
      simp [hlen, hb]
    · simp [length_beq_false_of_ne hb, hb]
  · rw [(RoomHistory_shape c id date tz net).2]
    by_cases hb : c.BaseURL = ""
    · have hlen : (c.BaseURL.length == 0) = true := by simp [hb]
      simp [hlen, hb]
    · simp [length_beq_false_of_ne hb, hb]

/-- Witness for C8 at a concrete client with an empty BaseURL and a token
that needs escaping. -/
theorem request_urls_current_witness :
    ∃ payload, urlValuesFromMessageRequest { RoomId := "r", From := "f", Message := "m" } = .ok payload ∧
      ((Client.PostMessage ⟨"a&b", ""⟩ { RoomId := "r", From := "f", Message := "m" }
          (fun _ => .transportError "down")).trace = [⟨"POST",
        (if ("" : String) = "" then defaultBaseURL else "") ++
          "/rooms/message?auth_token=" ++ queryEscape "a&b", payload⟩] ∧
       (Client.RoomList ⟨"a&b", ""⟩ (fun _ => .transportError "down")).trace = [⟨"GET",
        (if ("" : String) = "" then defaultBaseURL else "") ++
          "/rooms/list?auth_token=" ++ queryEscape "a&b", []⟩] ∧
       (Client.RoomHistory ⟨"a&b", ""⟩ "1" "d" "z"
          (fun _ => .transportError "down")).trace = [⟨"GET",
        (if ("" : String) = "" then defaultBaseURL else "") ++
          "/rooms/history?auth_token=" ++ queryEscape "a&b" ++ "&room_id=" ++ queryEscape "1" ++
          "&date=" ++ queryEscape "d" ++ "&timezone=" ++ queryEscape "z", []⟩]) :=
  request_urls_current ⟨"a&b", ""⟩ { RoomId := "r", From := "f", Message := "m" } "1" "d" "z"
    (fun _ => .transportError "down") rfl (by decide) (by decide) (by decide)

/-- C9: every operation keeps AuthToken unchanged and changes BaseURL exactly
when it was empty at entry, setting it to the default endpoint; this holds on
every path, validation and transport errors included. -/
theorem client_frame (c : Client) (req : MessageRequest) (id date tz : String)
    (net : HttpRequest → HttpResult) :
    (c.PostMessage req net).client.AuthToken = c.AuthToken ∧
    (Client.RoomList c net).client.AuthToken = c.AuthToken ∧
    (Client.RoomHistory c id date tz net).client.AuthToken = c.AuthToken ∧
    (c.PostMessage req net).client.BaseURL =
      (if c.BaseURL = "" then defaultBaseURL else c.BaseURL) ∧
    (Client.RoomList c net).client.BaseURL =
      (if c.BaseURL = "" then defaultBaseURL else c.BaseURL) ∧
    (Client.RoomHistory c id date tz net).client.BaseURL =
      (if c.BaseURL = "" then defaultBaseURL else c.BaseURL) ∧
    ((if c.BaseURL = "" then defaultBaseURL else c.BaseURL) ≠ c.BaseURL ↔ c.BaseURL = "") := by
  have h1 := (RoomList_shape c net).1
  have h2 := (RoomHistory_shape c id date tz net).1
  have h3 := PostMessage_client c req net
  by_cases hb : c.BaseURL = ""
  · have hlen : (c.BaseURL.length == 0) = true := by simp [hb]
    simp [h1, h2, h3, hlen, hb]
    decide
  · have hlen := length_beq_false_of_ne hb
    simp [h1, h2, h3, hlen, hb]

/-- C10: over the default public endpoint the legacy and the current RoomList
agree: the same room list on success, and errors with equal messages on every
error path. -/
theorem roomList_legacy_equiv (tok : String) (net : HttpRequest → HttpResult) :
    (∃ rooms, (Legacy.Client.RoomList ⟨tok⟩ net).2 = .ok rooms ∧
      (Client.RoomList ⟨tok, defaultBaseURL⟩ net).result = .ok rooms) ∨
    (∃ e e2, (Legacy.Client.RoomList ⟨tok⟩ net).2 = .error e ∧
      (Client.RoomList ⟨tok, defaultBaseURL⟩ net).result = .error e2 ∧
      e.message = e2.message) := by
  unfold Legacy.Client.RoomList Client.RoomList
  have hb : (("https://api.hipchat.com/v1").length == 0) = false := by decide
  simp only [Legacy.baseURL, defaultBaseURL, hb, Bool.false_eq_true, ite_false, if_false]
  rcases hnet : net ⟨"GET", "https://api.hipchat.com/v1" ++ "/rooms/list?auth_token=" ++ queryEscape tok, []⟩
    with m | ⟨code, body⟩
  · exact Or.inr ⟨.transport m, .transport m, rfl, rfl, rfl⟩
  · by_cases hc : (code != 200) = true
    · simp only [hc, if_true, ite_true]
      cases body with
      | notJson m => exact Or.inr ⟨.jsonError m, .jsonError m, rfl, rfl, rfl⟩
      | json j =>
        cases he : unmarshalErrorResponse j with
        | error m =>
          simp only [getError, he]
          exact Or.inr ⟨.jsonError m, .jsonError m, rfl, rfl, rfl⟩
        | ok e =>
          simp only [getError, he]
          exact Or.inr ⟨.errorString e.Message, .hipchat e, rfl, rfl, rfl⟩
    · simp only [hc, if_false, ite_false, Bool.not_eq_true]
      cases hr : unmarshalRoomsBody body with
      | error m =>
        simp only [hr]
        exact Or.inr ⟨.jsonError m, .jsonError m, rfl, rfl, rfl⟩
      | ok rooms =>
        simp only [hr]
        exact Or.inl ⟨rooms, rfl, rfl⟩
